import Mathlib

/-!
Verification of the NES emulator core in `app.cpp` (repository
catsanzsh/GXNESTICLE0..X.X): a shallow embedding of the `CPU6502` struct,
the `Memory` class and the `NesticleClone::emulate_cycle` step, together
with theorems settling the specification claims about them.

Machine integers are modelled as `Nat` with explicit `% 2 ^ w` at the
points where the C++ unsigned types truncate (`uint8_t` stores and
increments truncate mod 256, the `uint16_t` program counter and address
parameters truncate mod 65536).  The fallible `std::vector` indexed
access is modelled with `Option`.  Diagnostics written to `std::cerr`
are modelled as a list of emitted strings.
-/

/-- CPU register file of `struct CPU6502` (app.cpp lines 12-16):
accumulator `A`, index registers `X` and `Y`, stack pointer `SP`
(all `uint8_t`), program counter `PC` (`uint16_t`) and the status
register `status` (`uint8_t`).  Each field holds the value of the
corresponding C++ member as a natural number below the type's modulus. -/
structure CPU6502 where
  A : Nat
  X : Nat
  Y : Nat
  SP : Nat
  PC : Nat
  status : Nat

/-- `CPU6502::reset` (app.cpp lines 18-23): `A = X = Y = 0`,
`SP = 0xFD`, `PC = 0x8000` (a hard-coded constant, with the source
comment "Start address for NES programs"; the reset vector in memory is
never read), `status = 0x24`. -/
def CPU6502.reset (_c : CPU6502) : CPU6502 :=
  { A := 0, X := 0, Y := 0, SP := 0xFD, PC := 0x8000, status := 0x24 }

/-- `CPU6502::update_zero_and_negative_flags` (app.cpp lines 46-58).
The zero flag is status bit 1 (`0x02`), the negative flag is status
bit 7 (`0x80`).  `status &= ~0x02` on `uint8_t` is `status &&& 0xFD`
and `status &= ~0x80` is `status &&& 0x7F` (the complement is taken in
8 bits). -/
def CPU6502.update_zero_and_negative_flags (c : CPU6502) (value : Nat) : CPU6502 :=
  let s1 := if value = 0 then c.status ||| 0x02 else c.status &&& 0xFD
  let s2 := if value &&& 0x80 ≠ 0 then s1 ||| 0x80 else s1 &&& 0x7F
  { c with status := s2 }

/-- Size of the backing store of class `Memory`: the constructor
`Memory() : ram(0x10000, 0)` (app.cpp line 66) builds the `ram` vector
with `0x10000` zero-initialised elements, and nothing ever resizes it. -/
def ramSize : Nat := 0x10000

/-- The `Memory` class (app.cpp lines 62-75).  `ram` gives the contents
of the `std::vector<uint8_t>` cell at each index below `ramSize`
(values at indices outside the vector are meaningless padding of the
model).  Reachable memories store bytes, i.e. values below 256. -/
structure Memory where
  ram : Nat → Nat

/-- The freshly constructed `Memory()` (app.cpp line 66): every cell is 0. -/
def Memory.new : Memory := ⟨fun _ => 0⟩

/-- The raw indexed access `ram[address]` inside `Memory::read`
(app.cpp line 69): defined (returns the element) exactly when the index
is inside the vector, i.e. below `ramSize`. -/
def Memory.read? (m : Memory) (address : Nat) : Option Nat :=
  if address < ramSize then some (m.ram address) else none

/-- The raw indexed store `ram[address] = value` inside `Memory::write`
(app.cpp line 73): defined exactly when the index is below `ramSize`;
the stored element is a `uint8_t`, hence `value % 256`. -/
def Memory.write? (m : Memory) (address value : Nat) : Option Memory :=
  if address < ramSize then
    some ⟨fun i => if i = address then value % 256 else m.ram i⟩
  else none

/-- `Memory::read` (app.cpp lines 68-70) as a total function on the
caller's integer argument: the `uint16_t` parameter truncates the
address mod 65536, after which the vector access is in bounds (see the
claim C4 theorem).  No masking of the 16-bit address takes place: the
full unmasked address indexes the flat 64KB array. -/
def Memory.read (m : Memory) (address : Nat) : Nat :=
  m.ram (address % 0x10000)

/-- `Memory::write` (app.cpp lines 72-74) as a total function: the
`uint16_t` address parameter truncates mod 65536 and the `uint8_t`
value parameter truncates mod 256.  The full unmasked 16-bit address
picks the cell. -/
def Memory.write (m : Memory) (address value : Nat) : Memory :=
  ⟨fun i => if i = address % 0x10000 then value % 256 else m.ram i⟩

/-- `CPU6502::execute_opcode` (app.cpp lines 25-44).  The C++ `switch`
becomes an `if` chain on the opcode byte.  `0xA9` (LDA immediate) loads
`A` from `memory.read(PC++)` (`uint16_t` increment wraps mod 65536) and
updates the zero/negative flags from `A`; `0xAA` (TAX) copies `A` to
`X` and updates the flags from `X`; `0xE8` (INX) increments `X`
(`uint8_t`, so mod 256) and updates the flags from `X`; any other
opcode only prints "Unknown opcode: " followed by the opcode in
lower-case hex (`std::hex`) to `std::cerr`.  The result is the new
register file, the memory (passed by reference and never written by any
case) and the list of diagnostic messages emitted. -/
def CPU6502.execute_opcode (c : CPU6502) (opcode : Nat) (memory : Memory) :
    CPU6502 × Memory × List String :=
  if opcode = 0xA9 then
    let c1 := { c with A := memory.read c.PC, PC := (c.PC + 1) % 0x10000 }
    (c1.update_zero_and_negative_flags c1.A, memory, [])
  else if opcode = 0xAA then
    let c1 := { c with X := c.A }
    (c1.update_zero_and_negative_flags c1.X, memory, [])
  else if opcode = 0xE8 then
    let c1 := { c with X := (c.X + 1) % 256 }
    (c1.update_zero_and_negative_flags c1.X, memory, [])
  else
    (c, memory, ["Unknown opcode: " ++ String.mk (Nat.toDigits 16 opcode)])

/-- The emulator state of class `NesticleClone` (app.cpp lines 89-169)
restricted to the components the CPU core touches: the CPU and the
memory.  (The SDL window/renderer handles, the `running` flag and the
PPU placeholder play no part in `emulate_cycle`.) -/
structure NesticleClone where
  cpu : CPU6502
  memory : Memory

/-- `NesticleClone::emulate_cycle` (app.cpp lines 149-153): fetch the
opcode byte at `PC`, increment `PC` (`uint16_t`, mod 65536), then
dispatch through `execute_opcode`.  The C++ function returns `void`;
here the new state is returned together with the diagnostics emitted.
There is no cycle count anywhere in the source. -/
def emulate_cycle (n : NesticleClone) : NesticleClone × List String :=
  let opcode := n.memory.read n.cpu.PC
  let cpu1 := { n.cpu with PC := (n.cpu.PC + 1) % 0x10000 }
  let r := cpu1.execute_opcode opcode n.memory
  (⟨r.1, r.2.1⟩, r.2.2)

/-- Iterating `emulate_cycle` a given number of steps (the body of
`NesticleClone::run`, app.cpp lines 155-162, with rendering and input
polling stripped; diagnostics are discarded). -/
def emulateN : Nat → NesticleClone → NesticleClone
  | 0, n => n
  | k + 1, n => emulateN k (emulate_cycle n).1

/-- The zero/negative flag contract for one flag update: in the new
status byte, bit 1 (zero flag) is set iff the value is 0, bit 7
(negative flag) equals bit 7 of the value, and every other bit of the
8-bit status register (bits 0, 2, 3, 4, 5, 6) is unchanged. -/
def flags_zn_ok (old new v : Nat) : Prop :=
  new.testBit 1 = decide (v = 0) ∧
  new.testBit 7 = v.testBit 7 ∧
  new.testBit 0 = old.testBit 0 ∧
  new.testBit 2 = old.testBit 2 ∧
  new.testBit 3 = old.testBit 3 ∧
  new.testBit 4 = old.testBit 4 ∧
  new.testBit 5 = old.testBit 5 ∧
  new.testBit 6 = old.testBit 6

/-- Single bits of the mask constants `0x02`, `0x80`, `0xFD` (= `~0x02`
in 8 bits) and `0x7F` (= `~0x80` in 8 bits) used by the flag update. -/
lemma tbits :
    (Nat.testBit 2 0 = false) ∧ (Nat.testBit 2 1 = true) ∧ (Nat.testBit 2 2 = false) ∧
    (Nat.testBit 2 3 = false) ∧ (Nat.testBit 2 4 = false) ∧ (Nat.testBit 2 5 = false) ∧
    (Nat.testBit 2 6 = false) ∧ (Nat.testBit 2 7 = false) ∧
    (Nat.testBit 128 0 = false) ∧ (Nat.testBit 128 1 = false) ∧ (Nat.testBit 128 2 = false) ∧
    (Nat.testBit 128 3 = false) ∧ (Nat.testBit 128 4 = false) ∧ (Nat.testBit 128 5 = false) ∧
    (Nat.testBit 128 6 = false) ∧ (Nat.testBit 128 7 = true) ∧
    (Nat.testBit 253 0 = true) ∧ (Nat.testBit 253 1 = false) ∧ (Nat.testBit 253 2 = true) ∧
    (Nat.testBit 253 3 = true) ∧ (Nat.testBit 253 4 = true) ∧ (Nat.testBit 253 5 = true) ∧
    (Nat.testBit 253 6 = true) ∧ (Nat.testBit 253 7 = true) ∧
    (Nat.testBit 127 0 = true) ∧ (Nat.testBit 127 1 = true) ∧ (Nat.testBit 127 2 = true) ∧
    (Nat.testBit 127 3 = true) ∧ (Nat.testBit 127 4 = true) ∧ (Nat.testBit 127 5 = true) ∧
    (Nat.testBit 127 6 = true) ∧ (Nat.testBit 127 7 = false) := by decide

/-- The test `value & 0x80` of the C++ flag update reads exactly bit 7. -/
lemma and_128_testBit (v : Nat) : (v &&& 0x80 ≠ 0) ↔ v.testBit 7 = true := by
  rw [show (0x80 : Nat) = 2 ^ 7 from rfl, Nat.and_two_pow]
  cases hb : v.testBit 7 <;> simp [hb]

/-- Contrapositive form of the bit-7 test. -/
lemma and_128_testBit_false (v : Nat) (h : ¬ v &&& 0x80 ≠ 0) : v.testBit 7 = false := by
  cases hb : v.testBit 7
  · rfl
  · exact absurd ((and_128_testBit v).mpr hb) h

/-- The flag update satisfies the zero/negative contract for every
starting status byte and every value. -/
lemma update_flags_spec (c : CPU6502) (v : Nat) :
    flags_zn_ok c.status (c.update_zero_and_negative_flags v).status v := by
  by_cases hz : v = 0
  · subst hz
    have hn : ¬ ((0 : Nat) &&& 0x80 ≠ 0) := by decide
    unfold CPU6502.update_zero_and_negative_flags flags_zn_ok
    simp [if_pos rfl, if_neg hn, tbits]
  · by_cases hn : v &&& 0x80 ≠ 0
    · have h7 := (and_128_testBit v).mp hn
      unfold CPU6502.update_zero_and_negative_flags flags_zn_ok
      simp [if_neg hz, if_pos hn, tbits, hz, h7]
    · have h7 := and_128_testBit_false v hn
      unfold CPU6502.update_zero_and_negative_flags flags_zn_ok
      simp [if_neg hz, if_neg hn, tbits, hz, h7]

/-- The flag update preserves status bit 5 (the unused bit). -/
lemma update_flags_testBit5 (c : CPU6502) (v : Nat) :
    (c.update_zero_and_negative_flags v).status.testBit 5 = c.status.testBit 5 :=
  (update_flags_spec c v).2.2.2.2.2.2.1

/-- One emulation step never changes status bit 5: all three
implemented opcodes go through the flag update, which preserves it, and
the unknown-opcode path leaves the status byte alone. -/
lemma emulate_cycle_testBit5 (n : NesticleClone) :
    (emulate_cycle n).1.cpu.status.testBit 5 = n.cpu.status.testBit 5 := by
  simp only [emulate_cycle, CPU6502.execute_opcode]
  split_ifs <;> simp [update_flags_testBit5]

/-- Bit 5 of the status byte propagates through any number of steps. -/
lemma emulateN_testBit5 (k : Nat) (n : NesticleClone)
    (h : n.cpu.status.testBit 5 = true) :
    (emulateN k n).cpu.status.testBit 5 = true := by
  induction k generalizing n with
  | zero => exact h
  | succ k ih =>
      show (emulateN k (emulate_cycle n).1).cpu.status.testBit 5 = true
      exact ih _ ((emulate_cycle_testBit5 n).trans h)

/-- Masking with `0x20` extracts bit 5. -/
lemma and_32_of_testBit5 (s : Nat) (h : s.testBit 5 = true) : s &&& 0x20 = 0x20 := by
  rw [show (0x20 : Nat) = 2 ^ 5 from rfl, Nat.and_two_pow, h]
  rfl

/-- C1.  For every 8-bit value v produced by a load, arithmetic or
logic instruction (LDA immediate producing A, TAX producing X, INX
producing X), after the instruction executes the zero flag (status
bit 1) equals (v = 0), the negative flag (status bit 7) equals bit 7 of
v, and no other status bit is changed by the flag update. -/
theorem claim_C1_zero_negative_after_lda_tax_inx (c : CPU6502) (mem : Memory) :
    flags_zn_ok c.status (c.execute_opcode 0xA9 mem).1.status (c.execute_opcode 0xA9 mem).1.A ∧
    flags_zn_ok c.status (c.execute_opcode 0xAA mem).1.status (c.execute_opcode 0xAA mem).1.X ∧
    flags_zn_ok c.status (c.execute_opcode 0xE8 mem).1.status (c.execute_opcode 0xE8 mem).1.X :=
  ⟨update_flags_spec { c with A := mem.read c.PC, PC := (c.PC + 1) % 0x10000 } (mem.read c.PC),
   update_flags_spec { c with X := c.A } c.A,
   update_flags_spec { c with X := (c.X + 1) % 256 } ((c.X + 1) % 256)⟩

/-- C2 (counterexample).  The claim says that after reset the PC equals
the value stored at the fixed reset-vector address (0xFFFC/0xFFFD,
little endian).  In a memory whose reset vector holds 0x9000, the PC
after reset is the constant 0x8000, not 0x9000: reset never reads
memory. -/
theorem claim_C2_counterexample :
    (CPU6502.reset ⟨0, 0, 0, 0, 0, 0⟩).PC ≠
      ((Memory.new.write 0xFFFC 0x00).write 0xFFFD 0x90).read 0xFFFC +
        256 * ((Memory.new.write 0xFFFC 0x00).write 0xFFFD 0x90).read 0xFFFD := by
  decide

/-- C2 (amended).  After reset(), A = X = Y = 0, SP = 0xFD,
status = 0x24, and PC is the hard-coded constant 0x8000; PC is not
derived from the reset vector in memory. -/
theorem claim_C2_reset_state (c : CPU6502) :
    CPU6502.reset c = ⟨0, 0, 0, 0xFD, 0x8000, 0x24⟩ :=
  rfl

/-- C3.  For every opcode byte outside the implemented set
{0xA9, 0xAA, 0xE8}, one emulation step with that opcode at PC is a
no-op that reports a diagnostic: A, X, Y, SP, the status register and
all memory are unchanged and only PC advances past the opcode byte
(mod 65536).  The function is total, so the step never terminates the
process.  (The source has no cycle accounting at all, so the claimed
2-cycle cost has no counterpart in the code; see RESULTS.) -/
theorem claim_C3_unknown_opcode_noop (n : NesticleClone) (op : Nat)
    (hop : n.memory.read n.cpu.PC = op)
    (h1 : op ≠ 0xA9) (h2 : op ≠ 0xAA) (h3 : op ≠ 0xE8) :
    emulate_cycle n =
      ({ n with cpu := { n.cpu with PC := (n.cpu.PC + 1) % 0x10000 } },
       ["Unknown opcode: " ++ String.mk (Nat.toDigits 16 op)]) := by
  simp only [emulate_cycle, CPU6502.execute_opcode, hop]
  rw [if_neg h1, if_neg h2, if_neg h3]

/-- C3 witness: stepping from the reset state over zeroed memory meets
an unknown opcode 0x00 and performs exactly the diagnosed no-op. -/
theorem claim_C3_witness :
    emulate_cycle ⟨⟨0, 0, 0, 0xFD, 0x8000, 0x24⟩, Memory.new⟩ =
      (⟨⟨0, 0, 0, 0xFD, 0x8001, 0x24⟩, Memory.new⟩, ["Unknown opcode: 0"]) :=
  claim_C3_unknown_opcode_noop ⟨⟨0, 0, 0, 0xFD, 0x8000, 0x24⟩, Memory.new⟩ 0
    rfl (by decide) (by decide) (by decide)

/-- C4.  For every 16-bit address, the raw vector access inside
Memory::read is in bounds and returns the byte that Memory::read
returns, and the raw vector store inside Memory::write is in bounds and
produces the memory that Memory::write produces: the backing store
covers the full 64KB address space, so neither operation faults. -/
theorem claim_C4_full_range_access (m : Memory) (a v : Nat) (h : a ≤ 0xFFFF) :
    m.read? a = some (m.read a) ∧ m.write? a v = some (m.write a v) := by
  have ha : a < ramSize := by unfold ramSize; omega
  have ha2 : a % 0x10000 = a := Nat.mod_eq_of_lt (by omega)
  constructor
  · simp only [Memory.read?, Memory.read, if_pos ha, ha2]
  · simp only [Memory.write?, Memory.write, if_pos ha, ha2]

/-- C4 witness at the top address 0xFFFF. -/
theorem claim_C4_witness :
    Memory.new.read? 0xFFFF = some (Memory.new.read 0xFFFF) ∧
      Memory.new.write? 0xFFFF 0x12 = some (Memory.new.write 0xFFFF 0x12) :=
  claim_C4_full_range_access Memory.new 0xFFFF 0x12 (by decide)

/-- C5 (counterexample).  The claim says RAM is mirrored every 2KB:
writing address 0x0000 should be visible at the alias 0x0800 (both have
the same low 11 bits).  In the code the address is not masked: after
write(0x0000, 1) the read of 0x0800 still returns 0, not 1. -/
theorem claim_C5_counterexample :
    (0x0800 &&& 0x07FF : Nat) = (0x0000 &&& 0x07FF : Nat) ∧
      (Memory.new.write 0x0000 1).read 0x0800 ≠ 1 := by
  decide

/-- C5 (amended).  There is no mirroring: Memory indexes the flat 64KB
array with the full unmasked 16-bit address, so a write to a is
invisible at every other address b — in particular at the 2KB mirror
aliases of a (b ≠ a with b AND 0x07FF = a AND 0x07FF), which keep their
own unchanged cells. -/
theorem claim_C5_no_mirroring (m : Memory) (a b v : Nat)
    (ha : a ≤ 0xFFFF) (hb : b ≤ 0xFFFF) (hne : b ≠ a)
    (_hmask : b &&& 0x07FF = a &&& 0x07FF) :
    (m.write a v).read b = m.read b := by
  have ha2 : a % 0x10000 = a := Nat.mod_eq_of_lt (by omega)
  have hb2 : b % 0x10000 = b := Nat.mod_eq_of_lt (by omega)
  simp [Memory.write, Memory.read, ha2, hb2, hne]

/-- C5 witness: the mirror alias 0x0800 of address 0x0000 is unaffected
by a write to 0x0000. -/
theorem claim_C5_witness :
    (Memory.new.write 0x0000 1).read 0x0800 = Memory.new.read 0x0800 :=
  claim_C5_no_mirroring Memory.new 0x0000 0x0800 1
    (by decide) (by decide) (by decide) (by decide)

/-- C6.  One step executes exactly one instruction, but the code
performs no cycle accounting: emulate_cycle returns only the new state
and diagnostics (the C++ function returns void), never a cycle count.
Here the step at a state with INX (0xE8) at PC executes that single
instruction — X is incremented, PC advances — and the returned value
visibly contains no cycle count. -/
theorem claim_C6_step_has_no_cycle_count :
    emulate_cycle ⟨⟨5, 7, 0, 0xFD, 0x0200, 0x24⟩, Memory.new.write 0x0200 0xE8⟩ =
      (⟨⟨5, 8, 0, 0xFD, 0x0201, 0x24⟩, Memory.new.write 0x0200 0xE8⟩, []) :=
  rfl

/-- C8.  Status bit 5 (the unused bit) is always set: reset() sets
status = 0x24 (bit 5 set), and every state reachable from a reset state
by any number of emulation steps over any initial memory still has
status AND 0x20 = 0x20, because no operation clears that bit. -/
theorem claim_C8_status_bit5_always_set (k : Nat) (c0 : CPU6502) (m0 : Memory) :
    (emulateN k ⟨CPU6502.reset c0, m0⟩).cpu.status &&& 0x20 = 0x20 :=
  and_32_of_testBit5 _
    (emulateN_testBit5 k ⟨CPU6502.reset c0, m0⟩ (show Nat.testBit 0x24 5 = true from rfl))

/-- C9.  INX (opcode 0xE8) increments X modulo 256 and touches nothing
else: A, Y, SP, PC and the memory are unchanged and no diagnostic is
emitted.  In particular from X = 0xFF it wraps to 0x00 with the zero
flag set and the negative flag clear. -/
theorem claim_C9_inx_wraps_mod_256 (c : CPU6502) (mem : Memory) :
    (c.execute_opcode 0xE8 mem).1.X = (c.X + 1) % 256 ∧
    (c.execute_opcode 0xE8 mem).1.A = c.A ∧
    (c.execute_opcode 0xE8 mem).1.Y = c.Y ∧
    (c.execute_opcode 0xE8 mem).1.SP = c.SP ∧
    (c.execute_opcode 0xE8 mem).1.PC = c.PC ∧
    (c.execute_opcode 0xE8 mem).2.1 = mem ∧
    (c.execute_opcode 0xE8 mem).2.2 = [] ∧
    (c.X = 0xFF →
      (c.execute_opcode 0xE8 mem).1.X = 0 ∧
      (c.execute_opcode 0xE8 mem).1.status.testBit 1 = true ∧
      (c.execute_opcode 0xE8 mem).1.status.testBit 7 = false) := by
  refine ⟨rfl, rfl, rfl, rfl, rfl, rfl, rfl, ?_⟩
  intro h
  have h0 : (c.X + 1) % 256 = 0 := by rw [h]
  obtain ⟨hb1, hb7, -⟩ :=
    update_flags_spec { c with X := (c.X + 1) % 256 } ((c.X + 1) % 256)
  refine ⟨h0, ?_, ?_⟩
  · exact hb1.trans (by rw [h0]; rfl)
  · exact hb7.trans (by rw [h0]; simp)

/-- C9 witness: from X = 0xFF, INX wraps X to 0 with the zero flag set
and the negative flag clear. -/
theorem claim_C9_witness :
    ((⟨0, 0xFF, 0, 0xFD, 0x8000, 0x24⟩ : CPU6502).execute_opcode 0xE8 Memory.new).1.X = 0 ∧
    ((⟨0, 0xFF, 0, 0xFD, 0x8000, 0x24⟩ : CPU6502).execute_opcode 0xE8 Memory.new).1.status.testBit 1
      = true ∧
    ((⟨0, 0xFF, 0, 0xFD, 0x8000, 0x24⟩ : CPU6502).execute_opcode 0xE8 Memory.new).1.status.testBit 7
      = false :=
  (claim_C9_inx_wraps_mod_256 ⟨0, 0xFF, 0, 0xFD, 0x8000, 0x24⟩ Memory.new).2.2.2.2.2.2.2 rfl

/-- C10.  Memory is a plain byte array with exact round-trip semantics:
for every address a and byte v, read(a) right after write(a, v) returns
v, and every other address b ≠ a is unchanged by the write — no side
effects, latches or aliasing between distinct 16-bit addresses. -/
theorem claim_C10_write_read_roundtrip (m : Memory) (a b v : Nat)
    (ha : a ≤ 0xFFFF) (hb : b ≤ 0xFFFF) (hv : v ≤ 0xFF) (hne : b ≠ a) :
    (m.write a v).read a = v ∧ (m.write a v).read b = m.read b := by
  have ha2 : a % 0x10000 = a := Nat.mod_eq_of_lt (by omega)
  have hb2 : b % 0x10000 = b := Nat.mod_eq_of_lt (by omega)
  have hv2 : v % 256 = v := Nat.mod_eq_of_lt (by omega)
  constructor
  · simp [Memory.write, Memory.read, ha2, hv2]
  · simp [Memory.write, Memory.read, ha2, hb2, hne]

/-- C10 witness: write 7 to address 3, read it back, and address 5 is
untouched. -/
theorem claim_C10_witness :
    (Memory.new.write 3 7).read 3 = 7 ∧
      (Memory.new.write 3 7).read 5 = Memory.new.read 5 :=
  claim_C10_write_read_roundtrip Memory.new 3 5 7
    (by decide) (by decide) (by decide) (by decide)
